import Mathlib

/-!
Verification development for the C25K Calendar Creator repository.

The definitions below are a shallow embedding of the plan-generation code in
`C25K Calendar Creator/c25k_ics_generator.py` (the consolidated Plan Builder),
of `anonymize_user`, of the JSON exporter boundary, and of
`c25k_utils/progress.py`.  Python dictionaries are embedded as records with
`Option` fields (`none` models an absent key), fallible dictionary subscripts
return `Except`, dates are proleptic Gregorian ordinals (`Int`, as produced by
`datetime.date.toordinal`), Python `int` is `Int` or `Nat`, and Python `float`
weights are `Rat`.
-/

namespace C25K

/-- Day label of a session dictionary: Python stores an `int` day index for
workout sessions and a weekday-abbreviation string for rest sessions. -/
inductive DayLabel where
  | num (n : Nat)
  | name (s : String)
deriving DecidableEq, Repr

/-- One session dictionary produced by `get_workout_plan`.  Workout sessions
carry `weather` and `date` keys; rest-day sessions omit them, which is
modelled by `none`. -/
structure Session where
  week : Nat
  day : DayLabel
  day_offset : Nat
  duration : Nat
  description : String
  workout : String
  tip : String
  weather : Option String := none
  date : Option String := none
deriving DecidableEq, Repr

/-- The user dictionary assembled by `get_user_info` in
`c25k_ics_generator.py`.  Every key may be absent (`none`). -/
structure PyUser where
  name : Option String := none
  age : Option Int := none
  weight : Option Rat := none
  gender : Option String := none
  unit : Option String := none
  hour : Option Nat := none
  minute : Option Nat := none
  lang : Option String := none
  goal : Option String := none
  weeks : Option Nat := none
  days_per_week : Option Nat := none
  rest_days : Option (List String) := none
  start_day : Option Int := none
  email : Option String := none
  location : Option String := none
  alert_minutes : Option Nat := none
  anonymize : Option Bool := none
deriving DecidableEq, Repr

/-- Python `user[key]`: raises `KeyError` when the key is absent. -/
def dictGet {α : Type} (o : Option α) (key : String) : Except String α :=
  match o with
  | some v => Except.ok v
  | none => Except.error ("KeyError: " ++ key)

/-- English workout table of `get_workout_details` (10 entries). -/
def workouts_en : List String :=
  [ "Brisk 5-min warmup walk. Then alternate 60 sec jogging and 90 sec walking for 20 min. Hydrate before and after."
  , "Brisk 5-min warmup walk. Then alternate 90 sec jogging, 2 min walking for 20 min. Hydrate before and after."
  , "Brisk 5-min warmup walk. 90 sec jog, 90 sec walk, 3 min jog, 3 min walk, repeat. Hydrate before and after."
  , "Brisk 5-min warmup walk. Jog 3 min, walk 90 sec, jog 5 min, walk 2.5 min, jog 3 min, walk 90 sec, jog 5 min. Hydrate before and after."
  , "Brisk 5-min warmup walk. Jog 5 min, walk 3 min, jog 5 min, walk 3 min, jog 5 min. Hydrate before and after."
  , "Brisk 5-min warmup walk. Jog 8 min, walk 5 min, jog 8 min. Hydrate before and after."
  , "Brisk 5-min warmup walk. Jog 25 min. Hydrate before and after."
  , "Brisk 5-min warmup walk. Jog 28 min. Hydrate before and after."
  , "Brisk 5-min warmup walk. Jog 30 min. Hydrate before and after."
  , "Brisk 5-min warmup walk. Jog 30 min. Hydrate before and after." ]

/-- Spanish workout table of `get_workout_details` (10 entries). -/
def workouts_es : List String :=
  [ "Camine rápido 5 min para calentar. Luego alterne 60 seg corriendo y 90 seg caminando durante 20 min. Hidratese antes y después."
  , "Camine rápido 5 min para calentar. Luego alterne 90 seg corriendo, 2 min caminando durante 20 min. Hidratese antes y después."
  , "Camine rápido 5 min para calentar. 90 seg corra, 90 seg camine, 3 min corra, 3 min camine, repita. Hidratese antes y después."
  , "Camine rápido 5 min para calentar. Corra 3 min, camine 90 seg, corra 5 min, camine 2.5 min, corra 3 min, camine 90 seg, corra 5 min. Hidratese antes y después."
  , "Camine rápido 5 min para calentar. Corra 5 min, camine 3 min, corra 5 min, camine 3 min, corra 5 min. Hidratese antes y después."
  , "Camine rápido 5 min para calentar. Corra 8 min, camine 5 min, corra 8 min. Hidratese antes y después."
  , "Camine rápido 5 min para calentar. Corra 25 min. Hidratese antes y después."
  , "Camine rápido 5 min para calentar. Corra 28 min. Hidratese antes y después."
  , "Camine rápido 5 min para calentar. Corra 30 min. Hidratese antes y después."
  , "Camine rápido 5 min para calentar. Corra 30 min. Hidratese antes y después." ]

/-- `get_workout_details(week, day, lang)`: table lookup indexed by week.
For `1 <= week <= 10` it returns `workouts[week - 1]`; otherwise it returns
`workouts[0]`.  The `day` argument is unused by the source. -/
def get_workout_details (week : Nat) (day : Nat) (lang : String) : String :=
  let workouts := if lang = "e" then workouts_en else workouts_es
  if 1 ≤ week ∧ week ≤ 10 then workouts.getD (week - 1) ""
  else if lang = "e" then workouts_en.getD 0 "" else workouts_es.getD 0 ""

/-- English tip table of `get_beginner_tip` (10 entries). -/
def tips_en : List String :=
  [ "Remember to stretch before and after your workout!"
  , "Wear comfortable shoes and clothing."
  , "Stay hydrated and listen to your body."
  , "Rest is as important as running. Take it easy on rest days!"
  , "Track your progress and celebrate small wins."
  , "Invite a friend or family member to join you!"
  , "If you feel pain, stop and consult a professional."
  , "Set a reminder so you don\x27t miss your session."
  , "Smile and enjoy the journey!"
  , "You\x27re doing great—keep going!" ]

/-- Spanish tip table of `get_beginner_tip` (10 entries). -/
def tips_es : List String :=
  [ "¡Recuerda estirar antes y después de tu entrenamiento!"
  , "Usa calzado y ropa cómodos."
  , "Mantente hidratado y escucha a tu cuerpo."
  , "El descanso es tan importante como correr. ¡Tómalo con calma en los días de descanso!"
  , "Registra tu progreso y celebra los pequeños logros."
  , "¡Invita a un amigo o familiar a unirse!"
  , "Si sientes dolor, detente y consulta a un profesional."
  , "Pon una alarma para no perder tu sesión."
  , "¡Sonríe y disfruta el proceso!"
  , "¡Lo estás haciendo genial, sigue así!" ]

/-- `get_beginner_tip(day, lang)`: `tips[(day - 1) % len(tips)]`.  The index
uses Python `%`, which is Euclidean remainder, hence `Int.emod`; rest days
call this with `day = rest_offset`, which can make `day - 1` negative. -/
def get_beginner_tip (day : Int) (lang : String) : String :=
  let tips := if lang = "e" then tips_en else tips_es
  tips.getD ((day - 1) % 10).toNat ""

/-- Proleptic Gregorian ordinal of 2025-07-15, the hard-coded default start
date `datetime(2025, 7, 15)` (`datetime.date(2025, 7, 15).toordinal()`). -/
def date_2025_07_15 : Int := 739447

/-- Python `date.weekday()`: Monday is 0.  Ordinal 1 (0001-01-01) was a
Monday, so the weekday of an ordinal `d` is `(d - 1) % 7`. -/
def pyWeekday (ordinal : Int) : Nat := ((ordinal - 1) % 7).toNat

/-- Zero-pad a natural number to two digits, as Python format `{:02d}` does
for the nonnegative hours and minutes used here. -/
def pad2 (n : Nat) : String := if n < 10 then "0" ++ toString n else toString n

/-- Zero-pad a natural number to four digits, as `strftime("%Y")` does. -/
def pad4 (n : Nat) : String :=
  if n < 10 then "000" ++ toString n
  else if n < 100 then "00" ++ toString n
  else if n < 1000 then "0" ++ toString n
  else toString n

/-- Convert a proleptic Gregorian ordinal to `YYYY-MM-DD`, the embedding of
`session_date.strftime("%Y-%m-%d")`.  Standard civil-from-days arithmetic;
ordinal 1 is 0001-01-01 and the 1970-01-01 epoch has ordinal 719163. -/
def formatDateYMD (ordinal : Int) : String :=
  let z : Nat := (ordinal + 305).toNat
  let era : Nat := z / 146097
  let doe : Nat := z % 146097
  let yoe : Nat := (doe - doe / 1460 + doe / 36524 - doe / 146096) / 365
  let y0 : Nat := yoe + era * 400
  let doy : Nat := doe - (365 * yoe + yoe / 4 - yoe / 100)
  let mp : Nat := (5 * doy + 2) / 153
  let d : Nat := doy - (153 * mp + 2) / 5 + 1
  let m : Nat := if mp < 10 then mp + 3 else mp - 9
  let y : Nat := if m ≤ 2 then y0 + 1 else y0
  pad4 y ++ "-" ++ pad2 m ++ "-" ++ pad2 d

/-- Stub weather table of `fetch_weather_for_session`, keyed by weekday. -/
def weatherStub (wd : Nat) : String :=
  match wd with
  | 0 => "Sunny 75°F"
  | 1 => "Partly Cloudy 72°F"
  | 2 => "Rainy 68°F"
  | 3 => "Thunderstorms 70°F"
  | 4 => "Cloudy 71°F"
  | 5 => "Showers 65°F"
  | _ => "Windy 69°F"

/-- `fetch_weather_for_session(location, date)` in the environment this
development models (no `OWM_API_KEY` set): the function falls back to the
deterministic stub `weather_map[date.weekday()]`.  The network branch is
outside the embedding; no claim depends on the weather string. -/
def fetch_weather_for_session (location : String) (ordinal : Int) : String :=
  weatherStub (pyWeekday ordinal)

/-- Render a weight for the `{weight:.1f}` fragment of the narrative.
The source formats a positive float with one decimal; here the rational
weight is scaled to tenths and rounded, computed on the numerator and
denominator: `t = floor(w * 10 + 1/2) = fdiv (20 * num + den) (2 * den)`
(rounding-mode differences on exact halves do not affect any claim). -/
def formatWeight1 (w : Rat) : String :=
  let t : Int := (20 * w.num + (w.den : Int)).fdiv (2 * (w.den : Int))
  toString (t / 10) ++ "." ++ toString ((t % 10).natAbs)

/-- The workout narrative f-string of `get_workout_plan`, with the dictionary
accesses `user["gender"]`, `user["age"]`, `user["weight"]`, `user["hour"]`,
`user["minute"]` already resolved to values. -/
def sessionDescription (gender : String) (age : Int) (weight : Rat)
    (hour minute : Nat) (weekNo : Nat) (workout tip : String) : String :=
  "Follow the Couch to 5K plan - Week " ++ toString weekNo ++ " session. " ++
  "Note: This plan is tailored for an adult " ++ gender ++
  " aged " ++ toString age ++ " with hypertension. " ++
  "Weight: " ++ formatWeight1 weight ++ " kg. " ++
  "Session time: " ++ pad2 hour ++ ":" ++ pad2 minute ++ ". " ++
  "Please monitor your health and consult your doctor if needed.\n" ++
  "Workout: " ++ workout ++ "\nTip: " ++ tip

/-- The suffix appended to every workout narrative by the safety rule. -/
def safetyNote : String := " (Reduced session duration for safety.)"

/-- The per-session update of the safety loop: duration becomes 25 and the
narrative is annotated. -/
def reduceForSafety (s : Session) : Session :=
  { s with duration := 25, description := s.description ++ safetyNote }

/-- The weekday-name list enumerated by the rest-day loop. -/
def weekdayNames : List String := ["Mon", "Tue", "Wed", "Thu", "Fri", "Sat", "Sun"]

/-- Scalar view of the quantities `get_workout_plan` reads from the user
dictionary (required keys resolved, `.get` defaults applied). -/
structure PlanCtx where
  gender : String
  age : Int
  weight : Rat
  hour : Nat
  minute : Nat
  weeks : Nat
  days_per_week : Nat
  rest_days : List String
  lang : String
  start_day : Int
  location : Option String
deriving DecidableEq, Repr

/-- Resolve the dictionary reads of `get_workout_plan`: `.get` keys take the
source defaults (`weeks` 10, `days_per_week` 3, `rest_days` Sat/Sun, `lang`
"e", `start_day` 2025-07-15) and the required keys take the given values. -/
def ctxOf (u : PyUser) (g : String) (a : Int) (w : Rat) (hh mm : Nat) : PlanCtx :=
  { gender := g, age := a, weight := w, hour := hh, minute := mm
  , weeks := u.weeks.getD 10
  , days_per_week := u.days_per_week.getD 3
  , rest_days := u.rest_days.getD ["Sat", "Sun"]
  , lang := u.lang.getD "e"
  , start_day := u.start_day.getD date_2025_07_15
  , location := u.location }

/-- One iteration of the workout-building loop of `get_workout_plan`
(`day_offset = day * (7 // days_per_week)`, table lookups, weather, the
narrative, and the session dictionary), with the required user keys resolved. -/
def mkWorkoutSession (ctx : PlanCtx) (week day : Nat) : Session :=
  let day_offset := day * (7 / ctx.days_per_week)
  let session_date := ctx.start_day + 7 * (week : Int) + (day_offset : Int)
  let workout := get_workout_details (week + 1) (day + 1) ctx.lang
  let tip := get_beginner_tip ((day : Int) + 1) ctx.lang
  let weather_str :=
    match ctx.location with
    | some loc => if loc = "" then "" else fetch_weather_for_session loc session_date
    | none => ""
  { week := week + 1
  , day := DayLabel.num (day + 1)
  , day_offset := day_offset
  , duration := 30
  , description := sessionDescription ctx.gender ctx.age ctx.weight ctx.hour ctx.minute
      (week + 1) workout tip
  , workout := workout
  , tip := tip
  , weather := some weather_str
  , date := some (formatDateYMD session_date) }

/-- The two nested workout loops: `for week in range(weeks): for day in
range(days_per_week): plan.append(...)`. -/
def workoutSessions (ctx : PlanCtx) : List Session :=
  (List.range ctx.weeks).flatMap (fun week =>
    (List.range ctx.days_per_week).map (fun day => mkWorkoutSession ctx week day))

/-- The safety rule: `if user["age"] >= 60 or user["weight"] >= 100`, every
session of the plan built so far is reduced. -/
def applySafety (age : Int) (weight : Rat) (plan : List Session) : List Session :=
  if 60 ≤ age ∨ 100 ≤ weight then plan.map reduceForSafety else plan

/-- One rest-day session dictionary (no `weather` and no `date` key). -/
def restSession (lang : String) (week : Nat) (rest_offset : Nat) (rest_name : String) : Session :=
  { week := week + 1
  , day := DayLabel.name rest_name
  , day_offset := rest_offset
  , duration := 0
  , description := "Rest Day - Week " ++ toString (week + 1) ++ " " ++ rest_name ++
      ". Rest and recover. Hydrate and stretch."
  , workout := "Rest Day"
  , tip := get_beginner_tip (rest_offset : Int) lang }

/-- The rest-day loop: for each week, for each `(rest_offset, rest_name)` in
`enumerate(["Mon", ..., "Sun"])`, a rest session is appended when
`rest_name in rest_days and rest_offset >= days_per_week`. -/
def restSessionsList (weeks days_per_week : Nat) (rest_days : List String)
    (lang : String) : List Session :=
  (List.range weeks).flatMap (fun week =>
    weekdayNames.enum.filterMap (fun p =>
      if p.2 ∈ rest_days ∧ days_per_week ≤ p.1
      then some (restSession lang week p.1 p.2) else none))

/-- The sort key of `sorted(plan, key=lambda s: (s["week"], s["day_offset"]))`:
lexicographic comparison on `(week, day_offset)`. -/
def sessionLE (s t : Session) : Prop :=
  s.week < t.week ∨ (s.week = t.week ∧ s.day_offset ≤ t.day_offset)

instance : DecidableRel sessionLE :=
  fun s t => inferInstanceAs (Decidable (_ ∨ _))

instance : IsTotal Session sessionLE :=
  ⟨by intro a b; rw [sessionLE, sessionLE]; omega⟩

instance : IsTrans Session sessionLE :=
  ⟨by intro a b c; rw [sessionLE, sessionLE, sessionLE]; omega⟩

/-- `get_workout_plan` with all dictionary reads already resolved: build the
workout sessions, apply the plan-wide safety rule, append the rest days, and
sort by `(week, day_offset)`.  Python `sorted` is a stable sort, and stable
sorting has a unique result, which insertion sort computes (and, unlike
merge sort, it is structurally recursive, so witnesses evaluate). -/
def getWorkoutPlanCore (ctx : PlanCtx) : List Session :=
  List.insertionSort sessionLE
    ((applySafety ctx.age ctx.weight (workoutSessions ctx)) ++
      restSessionsList ctx.weeks ctx.days_per_week ctx.rest_days ctx.lang)

/-- The body of the inner workout loop with its fallible dictionary
subscripts, in source order (weather truthiness check on `location`, then
`user["gender"]`, `user["age"]`, `user["weight"]`, `user["hour"]`,
`user["minute"]` inside the f-string). -/
def mkWorkoutSessionE (u : PyUser) (start_day : Int) (days_per_week : Nat)
    (lang : String) (week day : Nat) : Except String Session := do
  let day_offset := day * (7 / days_per_week)
  let session_date := start_day + 7 * (week : Int) + (day_offset : Int)
  let workout := get_workout_details (week + 1) (day + 1) lang
  let tip := get_beginner_tip ((day : Int) + 1) lang
  let weather_str :=
    match u.location with
    | some loc => if loc = "" then "" else fetch_weather_for_session loc session_date
    | none => ""
  let gender ← dictGet u.gender "gender"
  let age ← dictGet u.age "age"
  let weight ← dictGet u.weight "weight"
  let hour ← dictGet u.hour "hour"
  let minute ← dictGet u.minute "minute"
  pure
    { week := week + 1
    , day := DayLabel.num (day + 1)
    , day_offset := day_offset
    , duration := 30
    , description := sessionDescription gender age weight hour minute (week + 1) workout tip
    , workout := workout
    , tip := tip
    , weather := some weather_str
    , date := some (formatDateYMD session_date) }

/-- `get_workout_plan(user)`.  Dictionary `.get` reads take their defaults;
the nested loops append workout sessions (each iteration performing the
fallible subscripts of the source); line 576 then reads `user["age"]` and,
only when `age < 60`, `user["weight"]` (Python `or` short-circuits); the
safety reduction is applied plan-wide; the rest-day loop appends rest
sessions; finally the plan is sorted by `(week, day_offset)`. -/
def getWorkoutPlanE (u : PyUser) : Except String (List Session) := do
  let weeks := u.weeks.getD 10
  let days_per_week := u.days_per_week.getD 3
  let rest_days := u.rest_days.getD ["Sat", "Sun"]
  let lang := u.lang.getD "e"
  let start_day := u.start_day.getD date_2025_07_15
  let plan ← (List.range weeks).foldlM (fun acc week =>
      (List.range days_per_week).foldlM (fun acc2 day => do
          let s ← mkWorkoutSessionE u start_day days_per_week lang week day
          pure (acc2 ++ [s])) acc) ([] : List Session)
  let age ← dictGet u.age "age"
  let reduce ← if 60 ≤ age then pure true else do
      let weight ← dictGet u.weight "weight"
      pure (decide ((100 : Rat) ≤ weight))
  let plan := if reduce then plan.map reduceForSafety else plan
  let plan := plan ++ restSessionsList weeks days_per_week rest_days lang
  pure (List.insertionSort sessionLE plan)

/-- `anonymize_user(user)`: if the `anonymize` key is absent or falsy the
dictionary is returned as is; otherwise a copy with `name` replaced by
`"Anonymous"` and `email` by the empty string. -/
def anonymize_user (user : PyUser) : PyUser :=
  if !(user.anonymize.getD false) then user
  else { user with name := some "Anonymous", email := some "" }

/-- A profile on which the claims quantify: positive parseable age and
weight, gender, hour and minute present, `weeks` in `[1, 52]` and
`days_per_week` in `[1, 7]`. -/
def validProfileB (u : PyUser) : Bool :=
  (match u.age with | some a => decide (0 < a) | none => false) &&
  (match u.weight with | some w => decide (0 < w) | none => false) &&
  u.gender.isSome && u.hour.isSome && u.minute.isSome &&
  (match u.weeks with | some n => decide (1 ≤ n ∧ n ≤ 52) | none => false) &&
  (match u.days_per_week with | some d => decide (1 ≤ d ∧ d ≤ 7) | none => false)

/-- Propositional form of `validProfileB`. -/
abbrev ValidProfile (u : PyUser) : Prop := validProfileB u = true

/-- Calendar placement used by `generate_ics`:
`session_date = start_day + timedelta(weeks=session["week"] - 1,
days=session["day_offset"])`, on ordinals. -/
def sessionDate (start_day : Int) (s : Session) : Int :=
  start_day + 7 * ((s.week : Int) - 1) + (s.day_offset : Int)

/-! ### JSON exporter boundary (`export_json` / `json.load`)

`export_json` hands the session list to `json.dump`.  The embedding models
the exchange at the level of the JSON document: `export_json` produces the
document below, `json.dump` renders it as text and `json.load` parses that
text back into an equal document, from which the session records are read
off.  Only strings and integers occur, so the document determines the
Python values exactly. -/

/-- JSON documents (no floats occur in a session dictionary). -/
inductive Json where
  | jnull
  | jbool (b : Bool)
  | jnum (n : Int)
  | jstr (s : String)
  | jarr (elems : List Json)
  | jobj (members : List (String × Json))

/-- The `day` value serializes as an integer for workouts and as a string
for rest days. -/
def dayLabelToJson : DayLabel → Json
  | DayLabel.num n => Json.jnum n
  | DayLabel.name s => Json.jstr s

/-- JSON object for one session dictionary, in the key order of the source
(`weather` and `date` keys only when present). -/
def sessionToJson (s : Session) : Json :=
  Json.jobj
    ([ ("week", Json.jnum (s.week : Int))
     , ("day", dayLabelToJson s.day)
     , ("day_offset", Json.jnum (s.day_offset : Int))
     , ("duration", Json.jnum (s.duration : Int))
     , ("description", Json.jstr s.description)
     , ("workout", Json.jstr s.workout)
     , ("tip", Json.jstr s.tip) ]
     ++ (match s.weather with | some w => [("weather", Json.jstr w)] | none => [])
     ++ (match s.date with | some d => [("date", Json.jstr d)] | none => []))

/-- The document `export_json` writes: a JSON array of session objects. -/
def export_json (plan : List Session) : Json :=
  Json.jarr (plan.map sessionToJson)

/-- Dictionary lookup on a parsed JSON object. -/
def jsonLookup (members : List (String × Json)) (key : String) : Option Json :=
  (members.find? (fun p => p.1 == key)).map (fun p => p.2)

/-- A session record as read back from the exported JSON: the week, day,
duration, workout and tip fields of the claimed round trip. -/
structure LoadedSession where
  week : Int
  day : Json
  duration : Int
  workout : String
  tip : String

/-- Read the week/day/duration/workout/tip fields out of one parsed session
object. -/
def decodeSession (j : Json) : Option LoadedSession :=
  match j with
  | Json.jobj ms =>
    match jsonLookup ms "week", jsonLookup ms "day", jsonLookup ms "duration",
        jsonLookup ms "workout", jsonLookup ms "tip" with
    | some (Json.jnum wk), some d, some (Json.jnum du),
        some (Json.jstr w), some (Json.jstr t) =>
      some { week := wk, day := d, duration := du, workout := w, tip := t }
    | _, _, _, _, _ => none
  | _ => none

/-- Read session records out of a list of parsed JSON objects, failing if
any element fails. -/
def decodePlanList : List Json → Option (List LoadedSession)
  | [] => some []
  | j :: js =>
    match decodeSession j, decodePlanList js with
    | some s, some rest => some (s :: rest)
    | _, _ => none

/-- Read all session records out of a parsed JSON document. -/
def decodePlan (j : Json) : Option (List LoadedSession) :=
  match j with
  | Json.jarr es => decodePlanList es
  | _ => none

/-- The record the round trip should reproduce for a session. -/
def loadedOf (s : Session) : LoadedSession :=
  { week := (s.week : Int), day := dayLabelToJson s.day
  , duration := (s.duration : Int), workout := s.workout, tip := s.tip }

/-! ### Progress import (`c25k_utils/progress.py`) -/

/-- Contents of a file on disk, as far as `import_progress` looks at them:
a workbook (named sheets of rows of optional cell values) or plain text. -/
inductive FileData where
  | xlsxFile (sheets : List (String × List (List (Option String))))
  | textFile (content : String)
deriving Repr

/-- `os.path.isabs` on a POSIX path. -/
def pyIsAbs (p : String) : Bool := p.startsWith "/"

/-- Row extraction of the `.xlsx` branch: choose the sheet named
`"Progress Tracker"` when present, else the active (first) sheet; take the
header row, then pair `headers[i]` with `str(row[i])` (empty string for
`None` cells) for each following row.  Header cells are modelled as strings. -/
def xlsxRows (sheets : List (String × List (List (Option String)))) :
    List (List (String × String)) :=
  let sheet : List (List (Option String)) :=
    match sheets.find? (fun p => p.1 == "Progress Tracker") with
    | some p => p.2
    | none => ((sheets.head?).map (fun p => p.2)).getD []
  match sheet with
  | [] => []
  | headerRow :: rows =>
    let headers := headerRow.map (fun c => c.getD "")
    rows.map (fun row =>
      (List.range headers.length).map (fun i =>
        (headers.getD i "", ((row.getD i none).getD ""))))

/-- `csv.DictReader` on simple unquoted comma-separated text: the first
line gives the keys, each later non-empty line is zipped against them. -/
def dictReaderRows (content : String) : List (List (String × String)) :=
  match content.splitOn "\n" with
  | [] => []
  | header :: rest =>
    let keys := header.splitOn ","
    (rest.filter (fun r => ¬ r = "")).map (fun r => keys.zip (r.splitOn ","))

/-- `import_progress(file_path)` over a filesystem `fs` (mapping a path to
its contents, `none` for a missing file).  The path is redirected into the
`created` output folder when relative and absent; a missing file raises
`FileNotFoundError`, answered by `return []`; a present `.xlsx` that is not
a workbook falls through (`except Exception: pass`) with `progress` still
empty. -/
def importProgress (fs : String → Option FileData) (file_path : String) :
    List (List (String × String)) :=
  let resolved :=
    if !pyIsAbs file_path && (fs file_path).isNone then
      if (fs ("created/" ++ file_path)).isSome then "created/" ++ file_path else file_path
    else file_path
  let afterXlsx : Option (List (List (String × String))) :=
    if resolved.toLower.endsWith ".xlsx" then
      match fs resolved with
      | none => none
      | some (FileData.xlsxFile sheets) => some (xlsxRows sheets)
      | some (FileData.textFile _) => some []
    else some []
  match afterXlsx with
  | none => []
  | some progress =>
    if progress = [] ∧ resolved.toLower.endsWith ".csv" then
      match fs resolved with
      | none => []
      | some (FileData.textFile content) => progress ++ dictReaderRows content
      | some (FileData.xlsxFile _) => progress
    else progress

/-- The plan `get_workout_plan` returns, as a value (empty on error). -/
def planOf (u : PyUser) : List Session := ((getWorkoutPlanE u).toOption).getD []

/-- A session list projected to its `(week, day_offset, duration)` triples. -/
def planKeys (u : PyUser) : List (Nat × Nat × Nat) :=
  (planOf u).map (fun s => (s.week, s.day_offset, s.duration))

/-- Witness profile: age 61 triggers the safety rule. -/
def uSafetyW : PyUser :=
  { age := some 61, weight := some 70, gender := some "male", hour := some 7
  , minute := some 0, weeks := some 1, days_per_week := some 1 }

/-- Witness profile: age 30 and weight 70, three workout days. -/
def uNormalW : PyUser :=
  { age := some 30, weight := some 70, gender := some "female", hour := some 6
  , minute := some 30, weeks := some 1, days_per_week := some 3 }

/-- Counterexample profile: custom rest-day set Friday only. -/
def uRestFriW : PyUser := { uNormalW with rest_days := some ["Fri"] }

/-- Counterexample profile: custom rest-day set Tuesday only. -/
def uRestTueW : PyUser := { uNormalW with rest_days := some ["Tue"] }

/-- Witness profile with the `anonymize` flag set. -/
def uAnonOnW : PyUser :=
  { name := some "Jo", email := some "jo@example.com", anonymize := some true }

/-- Witness profile without the `anonymize` flag. -/
def uAnonOffW : PyUser := { name := some "Jo", email := some "jo@example.com" }

/-- Placeholder session used only as a `headD` default. -/
def dummySession : Session := restSession "e" 0 0 ""

/-- First session of the safety-profile plan. -/
def sSafetyW : Session := (planOf uSafetyW).headD dummySession

/-! ### Generic lemmas about the loop embeddings -/

/-- A monadic fold whose body always succeeds is the pure fold. -/
theorem foldlM_except_ok {α β ε : Type} (f : β → α → Except ε β) (g : β → α → β)
    (hf : ∀ b a, f b a = Except.ok (g b a)) (l : List α) :
    ∀ b, l.foldlM f b = Except.ok (l.foldl g b) := by
  induction l with
  | nil => intro b; rfl
  | cons x xs ih =>
    intro b
    rw [List.foldlM_cons, hf b x]
    simpa using ih (g b x)

/-- A fold that appends a block per element is the flattened map. -/
theorem foldl_append_eq {α β : Type} (F : α → List β) (l : List α) :
    ∀ init : List β, l.foldl (fun acc x => acc ++ F x) init = init ++ l.flatMap F := by
  induction l with
  | nil => intro init; simp
  | cons x xs ih => intro init; simp [List.foldl_cons, ih]

/-- The nested append-one-session-at-a-time loops of `get_workout_plan`,
with an always-succeeding body, produce the flattened map of the body. -/
theorem nested_workout_fold_ok {γ : Type} (n m : Nat)
    (F : Nat → Nat → Except String γ) (G : Nat → Nat → γ)
    (hF : ∀ i j, F i j = Except.ok (G i j)) :
    (List.range n).foldlM (fun acc i =>
        (List.range m).foldlM (fun acc2 j => do
            let s ← F i j
            pure (acc2 ++ [s])) acc) ([] : List γ)
      = Except.ok ((List.range n).flatMap (fun i => (List.range m).map (G i))) := by
  have hinner : ∀ (i : Nat) (acc : List γ),
      (List.range m).foldlM (fun acc2 j => do
          let s ← F i j
          pure (acc2 ++ [s])) acc
        = Except.ok (acc ++ (List.range m).map (G i)) := by
    intro i acc
    have hbody : ∀ (b : List γ) (j : Nat),
        (do
          let s ← F i j
          pure (b ++ [s]) : Except String (List γ)) = Except.ok (b ++ [G i j]) := by
      intro b j
      rw [hF i j]
      rfl
    rw [foldlM_except_ok _ (fun b j => b ++ [G i j]) hbody (List.range m) acc]
    rw [foldl_append_eq (fun j => [G i j]) (List.range m) acc]
    rw [← List.map_eq_flatMap (G i) (List.range m)]
  rw [foldlM_except_ok _ (fun acc i => acc ++ (List.range m).map (G i))
        (fun b i => hinner i b) (List.range n) []]
  rw [foldl_append_eq (fun i => (List.range m).map (G i)) (List.range n) []]
  simp

/-! ### Transfer from the fallible builder to the resolved builder -/

/-- When the required keys are present, one iteration of the workout loop
succeeds and builds the session of the resolved context. -/
theorem mkWorkoutSessionE_ok (u : PyUser) (g : String) (a : Int) (w : Rat)
    (hh mm : Nat) (hg : u.gender = some g) (ha : u.age = some a)
    (hw : u.weight = some w) (hhr : u.hour = some hh) (hmn : u.minute = some mm)
    (week day : Nat) :
    mkWorkoutSessionE u (u.start_day.getD date_2025_07_15) (u.days_per_week.getD 3)
        (u.lang.getD "e") week day
      = Except.ok (mkWorkoutSession (ctxOf u g a w hh mm) week day) := by
  rw [mkWorkoutSessionE, hg, ha, hw, hhr, hmn]
  rfl

/-- When the required keys are present, `get_workout_plan` succeeds and
returns the resolved plan. -/
theorem getWorkoutPlanE_eq_core (u : PyUser) (g : String) (a : Int) (w : Rat)
    (hh mm : Nat) (hg : u.gender = some g) (ha : u.age = some a)
    (hw : u.weight = some w) (hhr : u.hour = some hh) (hmn : u.minute = some mm) :
    getWorkoutPlanE u = Except.ok (getWorkoutPlanCore (ctxOf u g a w hh mm)) := by
  rw [getWorkoutPlanE]
  rw [nested_workout_fold_ok (u.weeks.getD 10) (u.days_per_week.getD 3) _
        (fun i j => mkWorkoutSession (ctxOf u g a w hh mm) i j)
        (fun i j => mkWorkoutSessionE_ok u g a w hh mm hg ha hw hhr hmn i j)]
  show (Except.ok (workoutSessions (ctxOf u g a w hh mm)) >>= _) = _
  rw [show ∀ x (f : List Session → Except String (List Session)),
        (Except.ok x >>= f) = f x from fun x f => rfl]
  rw [ha]
  show (Except.ok a >>= _) = _
  rw [show ∀ (x : Int) (f : Int → Except String (List Session)),
        (Except.ok x >>= f) = f x from fun x f => rfl]
  by_cases h60 : (60 : Int) ≤ a
  · rw [if_pos h60]
    show (Except.ok true >>= _) = _
    rw [show ∀ (x : Bool) (f : Bool → Except String (List Session)),
          (Except.ok x >>= f) = f x from fun x f => rfl]
    rw [getWorkoutPlanCore, applySafety]
    simp only [ctxOf]
    rw [if_pos (Or.inl h60)]
    rfl
  · rw [if_neg h60, hw]
    show (Except.ok w >>= _) = _
    rw [show ∀ (x : Rat) (f : Rat → Except String (List Session)),
          (Except.ok x >>= f) = f x from fun x f => rfl]
    show (Except.ok (decide ((100 : Rat) ≤ w)) >>= _) = _
    rw [show ∀ (x : Bool) (f : Bool → Except String (List Session)),
          (Except.ok x >>= f) = f x from fun x f => rfl]
    rw [getWorkoutPlanCore, applySafety]
    simp only [ctxOf]
    by_cases h100 : (100 : Rat) ≤ w
    · rw [decide_eq_true h100, if_pos (Or.inr h100)]
      rfl
    · rw [decide_eq_false h100,
        if_neg (show ¬((60 : Int) ≤ a ∨ (100 : Rat) ≤ w) from by tauto)]
      rfl

/-- Unpack a valid profile into its witnessed fields and bounds. -/
theorem validProfile_fields (u : PyUser) (h : ValidProfile u) :
    ∃ g a w hh mm wk dpw, u.gender = some g ∧ u.age = some a ∧ 0 < a ∧
      u.weight = some w ∧ 0 < w ∧ u.hour = some hh ∧ u.minute = some mm ∧
      u.weeks = some wk ∧ 1 ≤ wk ∧ wk ≤ 52 ∧
      u.days_per_week = some dpw ∧ 1 ≤ dpw ∧ dpw ≤ 7 := by
  replace h : validProfileB u = true := h
  unfold validProfileB at h
  cases hg : u.gender with
  | none => rw [hg] at h; simp at h
  | some g =>
  cases ha : u.age with
  | none => rw [ha] at h; simp at h
  | some a =>
  cases hw : u.weight with
  | none => rw [hw] at h; simp at h
  | some w =>
  cases hhr : u.hour with
  | none => rw [hhr] at h; simp at h
  | some hh =>
  cases hmn : u.minute with
  | none => rw [hmn] at h; simp at h
  | some mm =>
  cases hwk : u.weeks with
  | none => rw [hwk] at h; simp at h
  | some wk =>
  cases hdpw : u.days_per_week with
  | none => rw [hdpw] at h; simp at h
  | some dpw =>
  rw [hg, ha, hw, hhr, hmn, hwk, hdpw] at h
  simp only [Bool.and_eq_true, decide_eq_true_eq, Option.isSome_some] at h
  refine ⟨g, a, w, hh, mm, wk, dpw, rfl, rfl, ?_, rfl, ?_, rfl, rfl, rfl,
    ?_, ?_, rfl, ?_, ?_⟩ <;> tauto

/-! ### Structure of the resolved plan -/

theorem mem_core {ctx : PlanCtx} {s : Session} :
    s ∈ getWorkoutPlanCore ctx ↔
      s ∈ applySafety ctx.age ctx.weight (workoutSessions ctx) ∨
      s ∈ restSessionsList ctx.weeks ctx.days_per_week ctx.rest_days ctx.lang := by
  rw [getWorkoutPlanCore, (List.perm_insertionSort sessionLE _).mem_iff, List.mem_append]

theorem mem_workoutSessions {ctx : PlanCtx} {s : Session} :
    s ∈ workoutSessions ctx ↔
      ∃ wk, wk < ctx.weeks ∧ ∃ d, d < ctx.days_per_week ∧
        s = mkWorkoutSession ctx wk d := by
  simp only [workoutSessions, List.mem_flatMap, List.mem_map, List.mem_range]
  constructor
  · rintro ⟨wk, hwk, d, hd, rfl⟩; exact ⟨wk, hwk, d, hd, rfl⟩
  · rintro ⟨wk, hwk, d, hd, rfl⟩; exact ⟨wk, hwk, d, hd, rfl⟩

theorem mem_restSessionsList {weeks dpw : Nat} {rest : List String} {lang : String}
    {s : Session} :
    s ∈ restSessionsList weeks dpw rest lang ↔
      ∃ wk, wk < weeks ∧ ∃ i nm, (i, nm) ∈ weekdayNames.enum ∧
        nm ∈ rest ∧ dpw ≤ i ∧ s = restSession lang wk i nm := by
  simp only [restSessionsList, List.mem_flatMap, List.mem_filterMap, List.mem_range]
  constructor
  · rintro ⟨wk, hwk, ⟨i, nm⟩, hmem, hif⟩
    by_cases hc : nm ∈ rest ∧ dpw ≤ i
    · rw [if_pos hc] at hif
      exact ⟨wk, hwk, i, nm, hmem, hc.1, hc.2, (Option.some_inj.1 hif).symm⟩
    · rw [if_neg hc] at hif; cases hif
  · rintro ⟨wk, hwk, i, nm, hmem, h1, h2, rfl⟩
    exact ⟨wk, hwk, ⟨i, nm⟩, hmem, by rw [if_pos ⟨h1, h2⟩]⟩

theorem restSession_duration (lang : String) (wk i : Nat) (nm : String) :
    (restSession lang wk i nm).duration = 0 := rfl

theorem reduceForSafety_duration (s : Session) :
    (reduceForSafety s).duration = 25 := rfl

theorem mkWorkoutSession_duration (ctx : PlanCtx) (wk d : Nat) :
    (mkWorkoutSession ctx wk d).duration = 30 := rfl

theorem length_workoutSessions (ctx : PlanCtx) :
    (workoutSessions ctx).length = ctx.weeks * ctx.days_per_week := by
  simp [workoutSessions, List.length_flatMap, Function.comp_def, mul_comm]

theorem length_applySafety (a : Int) (w : Rat) (l : List Session) :
    (applySafety a w l).length = l.length := by
  rw [applySafety]; split <;> simp

theorem mem_applySafety {a : Int} {w : Rat} {l : List Session} {s : Session} :
    s ∈ applySafety a w l ↔
      ((60 ≤ a ∨ 100 ≤ w) ∧ ∃ t ∈ l, s = reduceForSafety t) ∨
      (¬(60 ≤ a ∨ 100 ≤ w) ∧ s ∈ l) := by
  rw [applySafety]
  by_cases hc : (60 : Int) ≤ a ∨ (100 : Rat) ≤ w
  · rw [if_pos hc]
    simp only [List.mem_map, hc, true_and, not_true_eq_false, false_and, or_false]
    constructor
    · rintro ⟨t, ht, rfl⟩; exact ⟨t, ht, rfl⟩
    · rintro ⟨t, ht, rfl⟩; exact ⟨t, ht, rfl⟩
  · rw [if_neg hc]
    simp [hc]

/-! ### Claim theorems -/

/-- C1: for every valid profile, if age ≥ 60 or weight ≥ 100 kg then every
session of the returned plan with positive duration has duration 25 and a
narrative ending in the safety annotation; otherwise every such session has
duration 30. -/
theorem claim1_safety_rule (u : PyUser) (plan : List Session) (a : Int) (w : Rat)
    (hv : ValidProfile u) (ha : u.age = some a) (hw : u.weight = some w)
    (hp : getWorkoutPlanE u = Except.ok plan) :
    ∀ s ∈ plan, 0 < s.duration →
      ((60 ≤ a ∨ 100 ≤ w) →
        s.duration = 25 ∧ ∃ d, s.description = d ++ safetyNote) ∧
      (¬(60 ≤ a ∨ 100 ≤ w) → s.duration = 30) := by
  obtain ⟨g, a', w', hh, mm, wk, dpw, hg, ha', _, hw', _, hhr, hmn, _, _, _, _, _, _⟩ :=
    validProfile_fields u hv
  rw [ha] at ha'
  rw [hw] at hw'
  cases ha'
  cases hw'
  rw [getWorkoutPlanE_eq_core u g a w hh mm hg ha hw hhr hmn] at hp
  cases hp
  intro s hs hdur
  rw [mem_core] at hs
  rcases hs with hs | hs
  · rw [mem_applySafety] at hs
    rcases hs with ⟨hc, t, ht, rfl⟩ | ⟨hc, hs⟩
    · refine ⟨fun _ => ⟨rfl, t.description, rfl⟩, fun hn => absurd ?_ hn⟩
      simpa [ctxOf] using hc
    · rw [mem_workoutSessions] at hs
      obtain ⟨wk2, _, d2, _, rfl⟩ := hs
      refine ⟨fun hyes => absurd ?_ hc, fun _ => rfl⟩
      simpa [ctxOf] using hyes
  · rw [mem_restSessionsList] at hs
    obtain ⟨wk2, _, i, nm, _, _, _, rfl⟩ := hs
    simp [restSession] at hdur

set_option maxRecDepth 80000 in
/-- C1 witness: the safety profile (age 61) yields a first session of
duration 25 with the annotated narrative. -/
theorem claim1_witness :
    ((60 ≤ (61 : Int) ∨ 100 ≤ (70 : Rat)) →
      sSafetyW.duration = 25 ∧ ∃ d, sSafetyW.description = d ++ safetyNote) ∧
    (¬(60 ≤ (61 : Int) ∨ 100 ≤ (70 : Rat)) → sSafetyW.duration = 30) :=
  claim1_safety_rule uSafetyW (planOf uSafetyW) 61 70 (by decide) rfl rfl rfl
    sSafetyW (by decide) (by decide)

set_option maxHeartbeats 2000000 in
/-- C4 counterexample: the week-11 lookup does not return the week-10 text.
`get_workout_details` returns `workouts[0]`, not `workouts[9]`, for weeks
beyond 10. -/
theorem claim4_counterexample :
    ¬ get_workout_details 11 1 "e" = get_workout_details 10 1 "e" := by decide

/-- C4 amended: for every week greater than 10 (and every language and day),
the workout description looked up equals table entry 1, the week-1 text. -/
theorem claim4_plateau_week_one (week : Nat) (hweek : 10 < week) (day : Nat)
    (lang : String) :
    get_workout_details week day lang = get_workout_details 1 day lang := by
  simp only [get_workout_details]
  rw [if_neg (by omega : ¬(1 ≤ week ∧ week ≤ 10)),
    if_pos (by omega : 1 ≤ 1 ∧ 1 ≤ 10)]
  by_cases hl : lang = "e" <;> simp [hl]

/-- C4 witness: week 11 falls back to the week-1 text. -/
theorem claim4_witness :
    10 < 11 ∧ get_workout_details 11 1 "e" = get_workout_details 1 1 "e" :=
  ⟨by decide, claim4_plateau_week_one 11 (by decide) 1 "e"⟩

/-- C9: when neither the given path nor its `created/` redirection exists,
`import_progress` returns the empty list instead of raising, whatever the
file name (in particular for `.xlsx` and `.csv` names). -/
theorem claim9_missing_file_empty (fs : String → Option FileData) (path : String)
    (h1 : fs path = none) (h2 : fs ("created/" ++ path) = none) :
    importProgress fs path = [] := by
  unfold importProgress
  simp only [h1, h2, Option.isNone_none, Option.isSome_none, Bool.and_true,
    Bool.and_false, ite_self]
  by_cases hx : path.toLower.endsWith ".xlsx" <;>
    by_cases hc : path.toLower.endsWith ".csv" <;>
      simp [hx, hc, h1]

/-- C9 witness: missing `.xlsx` and `.csv` progress files both import as
empty. -/
theorem claim9_witness :
    importProgress (fun _ => none) "progress.xlsx" = [] ∧
    importProgress (fun _ => none) "progress.csv" = [] :=
  ⟨claim9_missing_file_empty (fun _ => none) "progress.xlsx" rfl rfl,
   claim9_missing_file_empty (fun _ => none) "progress.csv" rfl rfl⟩

/-- C10: `anonymize_user` is a pure function of the profile: with the
`anonymize` flag absent or false it returns the profile unchanged; with the
flag set it returns a copy whose `name` is `"Anonymous"` and whose `email`
is empty while every other field is unchanged. -/
theorem claim10_anonymize_frame (u : PyUser) :
    (u.anonymize.getD false = false → anonymize_user u = u) ∧
    (u.anonymize.getD false = true →
      (anonymize_user u).name = some "Anonymous" ∧
      (anonymize_user u).email = some "" ∧
      (anonymize_user u).age = u.age ∧
      (anonymize_user u).weight = u.weight ∧
      (anonymize_user u).gender = u.gender ∧
      (anonymize_user u).unit = u.unit ∧
      (anonymize_user u).hour = u.hour ∧
      (anonymize_user u).minute = u.minute ∧
      (anonymize_user u).lang = u.lang ∧
      (anonymize_user u).goal = u.goal ∧
      (anonymize_user u).weeks = u.weeks ∧
      (anonymize_user u).days_per_week = u.days_per_week ∧
      (anonymize_user u).rest_days = u.rest_days ∧
      (anonymize_user u).start_day = u.start_day ∧
      (anonymize_user u).location = u.location ∧
      (anonymize_user u).alert_minutes = u.alert_minutes ∧
      (anonymize_user u).anonymize = u.anonymize) := by
  constructor
  · intro h; simp [anonymize_user, h]
  · intro h; simp [anonymize_user, h]

/-- C10 witness: a profile without the flag is unchanged; one with the flag
gets the anonymous name. -/
theorem claim10_witness :
    anonymize_user uAnonOffW = uAnonOffW ∧
    (anonymize_user uAnonOnW).name = some "Anonymous" :=
  ⟨(claim10_anonymize_frame uAnonOffW).1 rfl,
   ((claim10_anonymize_frame uAnonOnW).2 rfl).1⟩

theorem countP_pos_core (ctx : PlanCtx) :
    (getWorkoutPlanCore ctx).countP (fun s => decide (0 < s.duration))
      = ctx.weeks * ctx.days_per_week := by
  rw [getWorkoutPlanCore, (List.perm_insertionSort sessionLE _).countP_eq,
    List.countP_append]
  have h1 : (applySafety ctx.age ctx.weight (workoutSessions ctx)).countP
      (fun s => decide (0 < s.duration))
      = (applySafety ctx.age ctx.weight (workoutSessions ctx)).length := by
    rw [List.countP_eq_length]
    intro s hs
    rw [mem_applySafety] at hs
    rcases hs with ⟨_, t, ht, rfl⟩ | ⟨_, hs⟩
    · simp [reduceForSafety_duration]
    · rw [mem_workoutSessions] at hs
      obtain ⟨wk2, _, d2, _, rfl⟩ := hs
      simp [mkWorkoutSession_duration]
  have h2 : (restSessionsList ctx.weeks ctx.days_per_week ctx.rest_days
      ctx.lang).countP (fun s => decide (0 < s.duration)) = 0 := by
    rw [List.countP_eq_zero]
    intro s hs
    rw [mem_restSessionsList] at hs
    obtain ⟨wk2, _, i, nm, _, _, _, rfl⟩ := hs
    simp [restSession_duration]
  rw [h1, h2, length_applySafety, length_workoutSessions]
  omega

/-- C5: for every valid profile, the returned plan contains exactly
`weeks * days_per_week` sessions of positive duration, and every other
session has duration 0. -/
theorem claim5_session_counts (u : PyUser) (plan : List Session) (wk dpw : Nat)
    (hv : ValidProfile u) (hwk : u.weeks = some wk)
    (hdpw : u.days_per_week = some dpw)
    (hp : getWorkoutPlanE u = Except.ok plan) :
    plan.countP (fun s => decide (0 < s.duration)) = wk * dpw ∧
    ∀ s ∈ plan, ¬ 0 < s.duration → s.duration = 0 := by
  obtain ⟨g, a, w, hh, mm, wk', dpw', hg, ha, _, hw, _, hhr, hmn, hwk', _, _,
    hdpw', _, _⟩ := validProfile_fields u hv
  rw [hwk] at hwk'
  cases hwk'
  rw [hdpw] at hdpw'
  cases hdpw'
  rw [getWorkoutPlanE_eq_core u g a w hh mm hg ha hw hhr hmn] at hp
  cases hp
  refine ⟨?_, fun s _ h => by omega⟩
  have h := countP_pos_core (ctxOf u g a w hh mm)
  simpa [ctxOf, hwk, hdpw] using h

set_option maxRecDepth 80000 in
/-- C5 witness: one week of three workout days gives exactly three positive
sessions. -/
theorem claim5_witness :
    (planOf uNormalW).countP (fun s => decide (0 < s.duration)) = 1 * 3 ∧
    ∀ s ∈ planOf uNormalW, ¬ 0 < s.duration → s.duration = 0 :=
  claim5_session_counts uNormalW (planOf uNormalW) 1 3 (by decide) rfl rfl rfl

/-- C8: `get_workout_plan` is total on valid profiles: every dictionary
subscript it performs finds its key and it returns a plan (the division
`7 // days_per_week` sits inside the loop over `range(days_per_week)`, so
`days_per_week ≥ 1` keeps it harmless); with no location set no weather
call is made. -/
theorem claim8_total_on_valid (u : PyUser) (hv : ValidProfile u)
    (hloc : u.location = none) :
    ∃ plan, getWorkoutPlanE u = Except.ok plan := by
  obtain ⟨g, a, w, hh, mm, wk, dpw, hg, ha, _, hw, _, hhr, hmn, _, _, _, _, _, _⟩ :=
    validProfile_fields u hv
  exact ⟨_, getWorkoutPlanE_eq_core u g a w hh mm hg ha hw hhr hmn⟩

/-- C8 witness: the normal profile yields a plan. -/
theorem claim8_witness : ∃ plan, getWorkoutPlanE uNormalW = Except.ok plan :=
  claim8_total_on_valid uNormalW (by decide) rfl

theorem decodeSession_sessionToJson (s : Session) :
    decodeSession (sessionToJson s) = some (loadedOf s) := by
  rcases s with ⟨wk, day, ofs, dur, desc, wo, tip, weather, date⟩
  cases weather <;> cases date <;> cases day <;>
    simp [decodeSession, sessionToJson, jsonLookup, loadedOf, dayLabelToJson,
      List.find?]

/-- C7: serializing a generated plan with `export_json` and parsing the
result back yields records whose week, day, duration, workout and tip
fields are identical to the originals. -/
theorem claim7_json_roundtrip (u : PyUser) (plan : List Session)
    (hp : getWorkoutPlanE u = Except.ok plan) :
    decodePlan (export_json plan) = some (plan.map loadedOf) := by
  rw [export_json, decodePlan]
  clear hp
  induction plan with
  | nil => rfl
  | cons x xs ih =>
    rw [List.map_cons, List.map_cons, decodePlanList, decodeSession_sessionToJson, ih]

set_option maxRecDepth 80000 in
/-- C7 witness: the round trip reproduces the normal profile plan. -/
theorem claim7_witness :
    decodePlan (export_json (planOf uNormalW))
      = some ((planOf uNormalW).map loadedOf) :=
  claim7_json_roundtrip uNormalW (planOf uNormalW) rfl

/-! ### Day-offset bounds and pairwise structure -/

theorem mkWorkoutSession_week (ctx : PlanCtx) (wk d : Nat) :
    (mkWorkoutSession ctx wk d).week = wk + 1 := rfl

theorem mkWorkoutSession_day_offset (ctx : PlanCtx) (wk d : Nat) :
    (mkWorkoutSession ctx wk d).day_offset = d * (7 / ctx.days_per_week) := rfl

theorem reduceForSafety_week (s : Session) :
    (reduceForSafety s).week = s.week := rfl

theorem reduceForSafety_day_offset (s : Session) :
    (reduceForSafety s).day_offset = s.day_offset := rfl

theorem restSession_week (lang : String) (wk i : Nat) (nm : String) :
    (restSession lang wk i nm).week = wk + 1 := rfl

theorem restSession_day_offset (lang : String) (wk i : Nat) (nm : String) :
    (restSession lang wk i nm).day_offset = i := rfl

theorem restSession_day (lang : String) (wk i : Nat) (nm : String) :
    (restSession lang wk i nm).day = DayLabel.name nm := rfl

/-- Workout day offsets stay within the week: for `1 ≤ dpw ≤ 7` and
`d < dpw`, `d * (7 / dpw) ≤ 6`. -/
theorem workout_offset_le (dpw d : Nat) (h1 : 1 ≤ dpw) (h7 : dpw ≤ 7)
    (hd : d < dpw) : d * (7 / dpw) ≤ 6 := by
  have hq : 1 ≤ 7 / dpw := (Nat.one_le_div_iff (by omega)).2 h7
  have hmul : (d + 1) * (7 / dpw) ≤ dpw * (7 / dpw) :=
    Nat.mul_le_mul_right _ (by omega)
  have hexp : (d + 1) * (7 / dpw) = d * (7 / dpw) + 7 / dpw := by ring
  have hdm : dpw * (7 / dpw) ≤ 7 := by
    rw [Nat.mul_comm]; exact Nat.div_mul_le_self 7 dpw
  omega

/-- A pair taken from the weekday enumeration has index below 7 and carries
the weekday name at that index. -/
theorem rest_enum_facts {i : Nat} {nm : String}
    (h : (i, nm) ∈ weekdayNames.enum) :
    i < 7 ∧ weekdayNames.getD i "" = nm := by
  obtain ⟨hlen, hval⟩ := List.mem_enum h
  have h7 : i < 7 := by simpa [weekdayNames] using hlen
  refine ⟨h7, ?_⟩
  rw [List.getD_eq_getElem _ _ hlen]
  exact hval.symm

/-- Conversely every index below 7 occurs in the weekday enumeration with
its weekday name. -/
theorem enum_of_lt {i : Nat} (h : i < 7) :
    (i, weekdayNames.getD i "") ∈ weekdayNames.enum := by
  interval_cases i <;> decide

/-- A weekday from the default rest set sits at offset 5 or 6. -/
theorem rest_sat_sun {i : Nat} {nm : String} (h : (i, nm) ∈ weekdayNames.enum)
    (hnm : nm ∈ (["Sat", "Sun"] : List String)) : i = 5 ∨ i = 6 := by
  obtain ⟨h7, hval⟩ := rest_enum_facts h
  simp only [List.mem_cons, List.not_mem_nil, or_false] at hnm
  rcases hnm with rfl | rfl <;> interval_cases i <;> simp_all [weekdayNames]

/-- No workout day offset can coincide with a rest offset of 5 or 6 that
passed the `rest_offset >= days_per_week` test. -/
theorem no_workout_at_rest_offset (dpw d i : Nat) (h1 : 1 ≤ dpw)
    (hd : d < dpw) (hi : dpw ≤ i) (h56 : i = 5 ∨ i = 6) :
    d * (7 / dpw) ≠ i := by
  have hb : ∀ dpw2 ∈ List.range 8, ∀ d2 ∈ List.range 8, ∀ i2 ∈ List.range 7,
      ¬(1 ≤ dpw2 ∧ d2 < dpw2 ∧ dpw2 ≤ i2 ∧ (i2 = 5 ∨ i2 = 6) ∧
        d2 * (7 / dpw2) = i2) := by decide
  intro heq
  exact hb dpw (List.mem_range.mpr (by omega)) d (List.mem_range.mpr (by omega))
    i (List.mem_range.mpr (by omega)) ⟨h1, hd, hi, h56, heq⟩

/-- Pairwise property of a flattened map, from an inner property per block
and a cross property between blocks. -/
theorem pairwise_flatMap {α β : Type} {R : β → β → Prop} {l : List α}
    {F : α → List β} (hinner : ∀ a ∈ l, (F a).Pairwise R)
    (hcross : List.Pairwise (fun a b => ∀ x ∈ F a, ∀ y ∈ F b, R x y) l) :
    (l.flatMap F).Pairwise R := by
  rw [show l.flatMap F = (l.map F).flatten from rfl, List.pairwise_flatten]
  constructor
  · intro l' hl'
    obtain ⟨a, ha, rfl⟩ := List.mem_map.1 hl'
    exact hinner a ha
  · rw [List.pairwise_map]
    exact hcross

/-- Every session of the resolved plan has a day offset of at most 6. -/
theorem core_offset_bound (ctx : PlanCtx) (h1 : 1 ≤ ctx.days_per_week)
    (h7 : ctx.days_per_week ≤ 7) :
    ∀ s ∈ getWorkoutPlanCore ctx, s.day_offset ≤ 6 := by
  intro s hs
  rw [mem_core] at hs
  rcases hs with hs | hs
  · rw [mem_applySafety] at hs
    rcases hs with ⟨_, t, ht, rfl⟩ | ⟨_, hs⟩
    · rw [mem_workoutSessions] at ht
      obtain ⟨wk, _, d, hd, rfl⟩ := ht
      rw [reduceForSafety_day_offset, mkWorkoutSession_day_offset]
      exact workout_offset_le _ _ h1 h7 hd
    · rw [mem_workoutSessions] at hs
      obtain ⟨wk, _, d, hd, rfl⟩ := hs
      rw [mkWorkoutSession_day_offset]
      exact workout_offset_le _ _ h1 h7 hd
  · rw [mem_restSessionsList] at hs
    obtain ⟨wk, _, i, nm, hmem, _, _, rfl⟩ := hs
    rw [restSession_day_offset]
    have := (rest_enum_facts hmem).1
    omega

/-- Within the workout block, sessions of the same week have distinct day
offsets. -/
theorem pairwise_key_workoutSessions (ctx : PlanCtx)
    (h1 : 1 ≤ ctx.days_per_week) (h7 : ctx.days_per_week ≤ 7) :
    (workoutSessions ctx).Pairwise
      (fun s t => s.week = t.week → s.day_offset ≠ t.day_offset) := by
  rw [workoutSessions]
  apply pairwise_flatMap
  · intro wk _
    rw [List.pairwise_map]
    apply (List.pairwise_lt_range _).imp_of_mem
    intro d1 d2 hd1 hd2 hlt
    rw [List.mem_range] at hd1 hd2
    intro _
    rw [mkWorkoutSession_day_offset, mkWorkoutSession_day_offset]
    have hq : 1 ≤ 7 / ctx.days_per_week := (Nat.one_le_div_iff (by omega)).2 h7
    have hmono : d1 * (7 / ctx.days_per_week) < d2 * (7 / ctx.days_per_week) :=
      Nat.mul_lt_mul_of_lt_of_le hlt (le_refl _) (by omega)
    omega
  · apply (List.pairwise_lt_range _).imp_of_mem
    intro w1 w2 hw1 hw2 hlt x hx y hy
    obtain ⟨d1, _, rfl⟩ := List.mem_map.1 hx
    obtain ⟨d2, _, rfl⟩ := List.mem_map.1 hy
    rw [mkWorkoutSession_week, mkWorkoutSession_week]
    omega

/-- Within the rest block, sessions of the same week have distinct day
offsets. -/
theorem pairwise_key_rest (weeks dpw : Nat) (rest : List String) (lang : String) :
    (restSessionsList weeks dpw rest lang).Pairwise
      (fun s t => s.week = t.week → s.day_offset ≠ t.day_offset) := by
  rw [restSessionsList]
  apply pairwise_flatMap
  · intro wk _
    refine List.Pairwise.filterMap _ ?_
      (show weekdayNames.enum.Pairwise (fun p q => p.1 < q.1) by decide)
    intro p q hpq b hb c hc
    by_cases hp : p.2 ∈ rest ∧ dpw ≤ p.1
    · rw [if_pos hp, Option.mem_some_iff] at hb
      by_cases hq : q.2 ∈ rest ∧ dpw ≤ q.1
      · rw [if_pos hq, Option.mem_some_iff] at hc
        subst hb; subst hc
        intro _
        rw [restSession_day_offset, restSession_day_offset]
        omega
      · rw [if_neg hq] at hc; cases hc
    · rw [if_neg hp] at hb; cases hb
  · apply (List.pairwise_lt_range _).imp_of_mem
    intro w1 w2 hw1 hw2 hlt x hx y hy
    obtain ⟨⟨i1, nm1⟩, _, hif1⟩ := List.mem_filterMap.1 hx
    obtain ⟨⟨i2, nm2⟩, _, hif2⟩ := List.mem_filterMap.1 hy
    by_cases hc1 : nm1 ∈ rest ∧ dpw ≤ i1
    · rw [if_pos hc1] at hif1
      by_cases hc2 : nm2 ∈ rest ∧ dpw ≤ i2
      · rw [if_pos hc2] at hif2
        cases hif1; cases hif2
        rw [restSession_week, restSession_week]
        omega
      · rw [if_neg hc2] at hif2; cases hif2
    · rw [if_neg hc1] at hif1; cases hif1

set_option maxRecDepth 80000 in
/-- C2 counterexample: the valid profile with rest-day set Friday and three
workout days yields two week-1 sessions sharing day offset 4 (the third
workout lands on offset 4 and the Friday rest day is emitted there too). -/
theorem claim2_counterexample :
    ValidProfile uRestFriW ∧
    ¬ (planOf uRestFriW).Pairwise
        (fun s t => s.week = t.week → s.day_offset ≠ t.day_offset) :=
  ⟨by decide, by decide⟩

/-- C2 amended: the returned plan is always sorted by `(week, day_offset)`;
when the configured rest-day set is contained in the default Saturday and
Sunday set, no two sessions of the same week share a day offset. -/
theorem claim2_sorted_unique (u : PyUser) (plan : List Session)
    (hv : ValidProfile u) (hp : getWorkoutPlanE u = Except.ok plan) :
    plan.Pairwise sessionLE ∧
    (u.rest_days.getD ["Sat", "Sun"] ⊆ ["Sat", "Sun"] →
      plan.Pairwise (fun s t => s.week = t.week → s.day_offset ≠ t.day_offset)) := by
  obtain ⟨g, a, w, hh, mm, wk, dpw, hg, ha, _, hw, _, hhr, hmn, hwk, _, _,
    hdpw, hd1, hd7⟩ := validProfile_fields u hv
  rw [getWorkoutPlanE_eq_core u g a w hh mm hg ha hw hhr hmn] at hp
  cases hp
  have hc1 : 1 ≤ (ctxOf u g a w hh mm).days_per_week := by
    simp only [ctxOf, hdpw, Option.getD_some]; exact hd1
  have hc7 : (ctxOf u g a w hh mm).days_per_week ≤ 7 := by
    simp only [ctxOf, hdpw, Option.getD_some]; exact hd7
  constructor
  · rw [getWorkoutPlanCore]
    exact List.sorted_insertionSort sessionLE _
  · intro hsub
    have hsymm : ∀ {x y : Session},
        (x.week = y.week → x.day_offset ≠ y.day_offset) →
        (y.week = x.week → y.day_offset ≠ x.day_offset) := by
      intro x y h heq hoff
      exact h heq.symm hoff.symm
    rw [getWorkoutPlanCore,
      List.Perm.pairwise_iff hsymm (List.perm_insertionSort sessionLE _),
      List.pairwise_append]
    refine ⟨?_, pairwise_key_rest _ _ _ _, ?_⟩
    · rw [applySafety]
      split
      · rw [List.pairwise_map]
        refine (pairwise_key_workoutSessions _ hc1 hc7).imp ?_
        intro a1 b1 hab
        rw [reduceForSafety_week, reduceForSafety_week,
          reduceForSafety_day_offset, reduceForSafety_day_offset]
        exact hab
      · exact pairwise_key_workoutSessions _ hc1 hc7
    · intro s hs t ht
      rw [mem_restSessionsList] at ht
      obtain ⟨wk2, _, i, nm, hmem, hinrest, hdpwi, rfl⟩ := ht
      have h56 : i = 5 ∨ i = 6 := rest_sat_sun hmem (hsub hinrest)
      rw [mem_applySafety] at hs
      rcases hs with ⟨_, t2, ht2, rfl⟩ | ⟨_, hs⟩
      · rw [mem_workoutSessions] at ht2
        obtain ⟨wk1, _, d, hd, rfl⟩ := ht2
        intro _
        rw [reduceForSafety_day_offset, mkWorkoutSession_day_offset,
          restSession_day_offset]
        exact no_workout_at_rest_offset _ _ _ hc1 hd hdpwi h56
      · rw [mem_workoutSessions] at hs
        obtain ⟨wk1, _, d, hd, rfl⟩ := hs
        intro _
        rw [mkWorkoutSession_day_offset, restSession_day_offset]
        exact no_workout_at_rest_offset _ _ _ hc1 hd hdpwi h56

set_option maxRecDepth 80000 in
/-- C2 witness: the normal profile (default rest days) is sorted and has no
duplicate `(week, day_offset)` pair. -/
theorem claim2_witness :
    (planOf uNormalW).Pairwise sessionLE ∧
    (planOf uNormalW).Pairwise
      (fun s t => s.week = t.week → s.day_offset ≠ t.day_offset) :=
  ⟨(claim2_sorted_unique uNormalW (planOf uNormalW) (by decide) rfl).1,
   (claim2_sorted_unique uNormalW (planOf uNormalW) (by decide) rfl).2
     (fun _ hx => hx)⟩

set_option maxRecDepth 80000 in
/-- C3 counterexample: with rest-day set Tuesday and three workout days,
Tuesday (offset 1) is not used by any workout, yet the code emits no rest
session for it, because its offset is below `days_per_week`. -/
theorem claim3_counterexample :
    ValidProfile uRestTueW ∧
    "Tue" ∈ uRestTueW.rest_days.getD ["Sat", "Sun"] ∧
    (∀ s ∈ planOf uRestTueW, 0 < s.duration → s.day_offset ≠ 1) ∧
    ¬ ∃ s ∈ planOf uRestTueW, s.duration = 0 ∧ s.week = 1 ∧ s.day_offset = 1 :=
  ⟨by decide, by decide, by decide, by decide⟩

/-- C3 amended: for every valid profile, the plan contains a zero-duration
session at `(week w, offset i)` exactly when `1 ≤ w ≤ weeks`, `i < 7`, the
weekday at offset `i` belongs to the configured rest-day set (default
Saturday/Sunday) and `days_per_week ≤ i`; every such session is labelled
with the weekday abbreviation. -/
theorem claim3_rest_day_characterization (u : PyUser) (plan : List Session)
    (wk dpw : Nat) (hv : ValidProfile u) (hwk : u.weeks = some wk)
    (hdpw : u.days_per_week = some dpw)
    (hp : getWorkoutPlanE u = Except.ok plan) :
    (∀ s ∈ plan, s.duration = 0 →
      s.day = DayLabel.name (weekdayNames.getD s.day_offset "")) ∧
    (∀ w i, (∃ s ∈ plan, s.duration = 0 ∧ s.week = w ∧ s.day_offset = i) ↔
      (1 ≤ w ∧ w ≤ wk ∧ i < 7 ∧
        weekdayNames.getD i "" ∈ u.rest_days.getD ["Sat", "Sun"] ∧ dpw ≤ i)) := by
  obtain ⟨g, a, w0, hh, mm, wk', dpw', hg, ha, _, hw0, _, hhr, hmn, hwk', _, _,
    hdpw', _, _⟩ := validProfile_fields u hv
  rw [hwk] at hwk'
  cases hwk'
  rw [hdpw] at hdpw'
  cases hdpw'
  rw [getWorkoutPlanE_eq_core u g a w0 hh mm hg ha hw0 hhr hmn] at hp
  cases hp
  have hcw : (ctxOf u g a w0 hh mm).weeks = wk := by
    simp only [ctxOf, hwk, Option.getD_some]
  have hcd : (ctxOf u g a w0 hh mm).days_per_week = dpw := by
    simp only [ctxOf, hdpw, Option.getD_some]
  have hcr : (ctxOf u g a w0 hh mm).rest_days = u.rest_days.getD ["Sat", "Sun"] := rfl
  constructor
  · intro s hs hdur
    rw [mem_core] at hs
    rcases hs with hs | hs
    · exfalso
      rw [mem_applySafety] at hs
      rcases hs with ⟨_, t, _, rfl⟩ | ⟨_, hs⟩
      · rw [reduceForSafety_duration] at hdur; cases hdur
      · rw [mem_workoutSessions] at hs
        obtain ⟨_, _, _, _, rfl⟩ := hs
        rw [mkWorkoutSession_duration] at hdur; cases hdur
    · rw [mem_restSessionsList] at hs
      obtain ⟨wk2, _, i, nm, hmem, _, _, rfl⟩ := hs
      rw [restSession_day, restSession_day_offset, (rest_enum_facts hmem).2]
  · intro w i
    constructor
    · rintro ⟨s, hs, hdur, hwq, hofs⟩
      rw [mem_core] at hs
      rcases hs with hs | hs
      · exfalso
        rw [mem_applySafety] at hs
        rcases hs with ⟨_, t, _, rfl⟩ | ⟨_, hs⟩
        · rw [reduceForSafety_duration] at hdur; cases hdur
        · rw [mem_workoutSessions] at hs
          obtain ⟨_, _, _, _, rfl⟩ := hs
          rw [mkWorkoutSession_duration] at hdur; cases hdur
      · rw [mem_restSessionsList] at hs
        obtain ⟨wk2, hwk2, i2, nm, hmem, hin, hge, rfl⟩ := hs
        obtain ⟨h7, hget⟩ := rest_enum_facts hmem
        rw [restSession_week] at hwq
        rw [restSession_day_offset] at hofs
        subst hwq
        subst hofs
        rw [hcw] at hwk2
        rw [hcd] at hge
        rw [hcr] at hin
        refine ⟨by omega, by omega, h7, ?_, hge⟩
        rw [hget]
        exact hin
    · rintro ⟨hw1, hwle, hi7, hinrest, hge⟩
      refine ⟨restSession (ctxOf u g a w0 hh mm).lang (w - 1) i
        (weekdayNames.getD i ""), ?_, rfl, ?_, ?_⟩
      · rw [mem_core]
        right
        rw [mem_restSessionsList]
        refine ⟨w - 1, ?_, i, weekdayNames.getD i "", enum_of_lt hi7, ?_, ?_, rfl⟩
        · rw [hcw]; omega
        · rw [hcr]; exact hinrest
        · rw [hcd]; exact hge
      · rw [restSession_week]; omega
      · rw [restSession_day_offset]

set_option maxRecDepth 80000 in
/-- C3 witness: for the normal profile the characterization instantiated at
week 1, offset 5 (Saturday) holds. -/
theorem claim3_witness :
    (∃ s ∈ planOf uNormalW, s.duration = 0 ∧ s.week = 1 ∧ s.day_offset = 5) ↔
      (1 ≤ 1 ∧ 1 ≤ 1 ∧ 5 < 7 ∧
        weekdayNames.getD 5 "" ∈ uNormalW.rest_days.getD ["Sat", "Sun"] ∧ 3 ≤ 5) :=
  (claim3_rest_day_characterization uNormalW (planOf uNormalW) 1 3
    (by decide) rfl rfl rfl).2 1 5

/-- C6: with `date(session) = start + 7 * (week - 1) + day_offset` days (the
placement `generate_ics` computes), the date sequence over the sorted plan
is non-decreasing, and sessions of consecutive weeks with equal day offset
are exactly 7 days apart. -/
theorem claim6_date_arithmetic (u : PyUser) (plan : List Session)
    (hv : ValidProfile u) (hp : getWorkoutPlanE u = Except.ok plan)
    (start : Int) :
    plan.Pairwise (fun s t => sessionDate start s ≤ sessionDate start t) ∧
    ∀ s ∈ plan, ∀ t ∈ plan, t.week = s.week + 1 → t.day_offset = s.day_offset →
      sessionDate start t = sessionDate start s + 7 := by
  obtain ⟨g, a, w, hh, mm, wk, dpw, hg, ha, _, hw, _, hhr, hmn, _, _, _,
    hdpw, hd1, hd7⟩ := validProfile_fields u hv
  rw [getWorkoutPlanE_eq_core u g a w hh mm hg ha hw hhr hmn] at hp
  cases hp
  have hc1 : 1 ≤ (ctxOf u g a w hh mm).days_per_week := by
    simp only [ctxOf, hdpw, Option.getD_some]; exact hd1
  have hc7 : (ctxOf u g a w hh mm).days_per_week ≤ 7 := by
    simp only [ctxOf, hdpw, Option.getD_some]; exact hd7
  constructor
  · have hsorted : (getWorkoutPlanCore (ctxOf u g a w hh mm)).Pairwise sessionLE := by
      rw [getWorkoutPlanCore]
      exact List.sorted_insertionSort sessionLE _
    refine hsorted.imp_of_mem ?_
    intro s t hs ht hle
    have h6 := core_offset_bound _ hc1 hc7 s hs
    rw [sessionLE] at hle
    rw [sessionDate, sessionDate]
    omega
  · intro s _ t _ hw2 ho
    rw [sessionDate, sessionDate, hw2, ho]
    push_cast
    ring

set_option maxRecDepth 80000 in
/-- C6 witness: the date property instantiated at the normal profile and
the default start ordinal. -/
theorem claim6_witness :
    (planOf uNormalW).Pairwise
      (fun s t => sessionDate date_2025_07_15 s ≤ sessionDate date_2025_07_15 t) ∧
    ∀ s ∈ planOf uNormalW, ∀ t ∈ planOf uNormalW,
      t.week = s.week + 1 → t.day_offset = s.day_offset →
        sessionDate date_2025_07_15 t = sessionDate date_2025_07_15 s + 7 :=
  claim6_date_arithmetic uNormalW (planOf uNormalW) (by decide) rfl date_2025_07_15

end C25K
